import Mathlib

/-!
A verification development for the db-sync schema-diff and DDL-synthesis core.

The embedding models the Python functions `compare_metadata` (db_utils.py),
`should_exclude_table` and `generate_sync_script` (app.py) as executable Lean
definitions:

* Python dicts become association lists (`List (String × _)`) preserving
  insertion order; `d[k]` becomes `List.lookup` returning `Option` so that a
  Python `KeyError` is modelled as `none` propagating to the caller.
* Python set differences over dict keys (`set(a) - set(b)`) become
  order-preserving filters over the key list; the claims proved below are all
  order-independent, so the unspecified Python set iteration order is
  immaterial.
* Python string operations (`startswith`, `endswith`, slicing `[:-1]`) operate
  on sequences of code points; they are modelled on `String.data`
  (`List Char`), which matches Python's semantics exactly.
-/

/-- A Python literal default value as stored in a column definition:
a string, an integer, or a boolean.  `None` (no default) is modelled by
wrapping in `Option` at the use site. -/
inductive DefVal where
  | str (s : String)
  | num (n : Int)
  | boolean (b : Bool)
deriving DecidableEq, Repr

/-- One column's structural facts, as built by `get_table_metadata`:
`type`, `nullable`, `default` (where `none` models Python `None`), and
`comment`.  The `comment` key may be absent from a raw snapshot dict, which
`compare_metadata` reads with `.get("comment")`; absence is modelled as
`none`. -/
structure ColumnDef where
  type : String
  nullable : Bool
  default : Option DefVal
  comment : Option String
deriving DecidableEq, Repr

/-- One table's structural facts: column name → definition (insertion
order preserved), the ordered primary-key column list, and the table
comment (read by `compare_metadata` with `.get("comment", "")`, so absence
collapses to the empty string and a plain `String` suffices). -/
structure TableDef where
  columns : List (String × ColumnDef)
  primary_key : List String
  comment : String
deriving DecidableEq, Repr

/-- A schema snapshot: table name → table definition. -/
def Snapshot : Type := List (String × TableDef)

instance : DecidableEq Snapshot := by
  unfold Snapshot
  infer_instance

/-- The keys of an association list, in order. -/
def keys {α : Type} (m : List (String × α)) : List String := m.map Prod.fst

/-- One attribute-level change record, as stored under
`changes[attr] = {"src": ..., "tgt": ...}` by `compare_metadata`.  The
comment entry records `.get("comment", "")` of each side. -/
inductive AttrChange where
  | typeC (src tgt : String)
  | nullableC (src tgt : Bool)
  | defaultC (src tgt : Option DefVal)
  | commentC (src tgt : String)
deriving DecidableEq, Repr

/-- The `changes` dict computed by `compare_metadata` for a column present in
both snapshots: type by string equality, nullable by boolean equality,
default by literal equality (`None` distinct from any value), comment by
equality of the raw `.get("comment")` results (`None` distinct from `""`). -/
def compareDefs (sd td : ColumnDef) : List (String × AttrChange) :=
  (if sd.type ≠ td.type then [("type", AttrChange.typeC sd.type td.type)] else [])
    ++ (if sd.nullable ≠ td.nullable then
          [("nullable", AttrChange.nullableC sd.nullable td.nullable)] else [])
    ++ (if sd.default ≠ td.default then
          [("default", AttrChange.defaultC sd.default td.default)] else [])
    ++ (if sd.comment ≠ td.comment then
          [("comment", AttrChange.commentC (sd.comment.getD "") (td.comment.getD ""))] else [])

/-- The per-column entry of `col_diff["changed"]`: both full definitions and
the non-empty `changes` dict. -/
structure ColChange where
  src : ColumnDef
  tgt : ColumnDef
  changes : List (String × AttrChange)
deriving DecidableEq, Repr

/-- The `col_diff` record `{"missing": ..., "extra": ..., "changed": ...}`
computed per common table. -/
structure ColDiff where
  missing : List String
  extra : List String
  changed : List (String × ColChange)
deriving DecidableEq, Repr

/-- The table-level part of the diff. -/
structure TablesDiff where
  missing : List String
  extra : List String
  changed : List String
deriving DecidableEq, Repr

/-- The full result of `compare_metadata`. -/
structure Diff where
  tables : TablesDiff
  columns : List (String × ColDiff)
deriving DecidableEq, Repr

/-- The column-comparison loop of `compare_metadata` for one common table:
column-name set differences plus the per-common-column attribute
comparison.  `src_cols[col]` / `tgt_cols[col]` always succeed for a common
column; the fallthrough `none` branch of the match is unreachable. -/
def compareCols (srcCols tgtCols : List (String × ColumnDef)) : ColDiff :=
  let srcNames := keys srcCols
  let tgtNames := keys tgtCols
  { missing := srcNames.filter (fun c => !tgtNames.contains c)
    extra := tgtNames.filter (fun c => !srcNames.contains c)
    changed := (srcNames.filter (fun c => tgtNames.contains c)).filterMap (fun c =>
      match srcCols.lookup c, tgtCols.lookup c with
      | some sd, some td =>
        if compareDefs sd td ≠ [] then
          some (c, { src := sd, tgt := td, changes := compareDefs sd td })
        else none
      | _, _ => none) }

/-- The body of the common-table loop of `compare_metadata`: compares the two
tables' comments and columns and returns `some col_diff` exactly when the
code appends the table to `tables.changed` and stores `columns[table]`. -/
def tableEntry (srcMeta tgtMeta : Snapshot) (t : String) : Option ColDiff :=
  match srcMeta.lookup t, tgtMeta.lookup t with
  | some st, some tt =>
    let cd := compareCols st.columns tt.columns
    if cd.missing ≠ [] ∨ cd.extra ≠ [] ∨ cd.changed ≠ [] ∨ st.comment ≠ tt.comment then
      some cd
    else none
  | _, _ => none

/-- `compare_metadata` from db_utils.py: table-level set differences, then
the per-common-table comparison.  `tables.changed` and `columns` are filled
together in the same branch of the loop, modelled by one `filterMap`. -/
def compare_metadata (srcMeta tgtMeta : Snapshot) : Diff :=
  let srcTables := keys srcMeta
  let tgtTables := keys tgtMeta
  let common := srcTables.filter (fun t => tgtTables.contains t)
  let step := common.filterMap (fun t => (tableEntry srcMeta tgtMeta t).map (fun cd => (t, cd)))
  { tables :=
      { missing := srcTables.filter (fun t => !tgtTables.contains t)
        extra := tgtTables.filter (fun t => !srcTables.contains t)
        changed := step.map Prod.fst }
    columns := step }

/-- Python `table_name.startswith(prefix)` on code points. -/
def py_startswith (s pre : String) : Bool := pre.data.isPrefixOf s.data

/-- Python `pattern.endswith(suffix)` on code points. -/
def py_endswith (s suf : String) : Bool := suf.data.isSuffixOf s.data

/-- Python `pattern[:-1]` on code points. -/
def py_dropLast (s : String) : String := String.mk s.data.dropLast

/-- `should_exclude_table` from app.py: first pattern that matches excludes;
a pattern ending in `*` is tested as a prefix after stripping the marker,
otherwise by exact equality. -/
def should_exclude_table (table_name : String) (exclude_tables : List String) : Bool :=
  match exclude_tables with
  | [] => false
  | pat :: rest =>
    if py_endswith pat "*" then
      if py_startswith table_name (py_dropLast pat) then true
      else should_exclude_table table_name rest
    else if pat == table_name then true
    else should_exclude_table table_name rest

theorem lookup_mem {α : Type} : ∀ {l : List (String × α)} {k : String} {v : α},
    l.lookup k = some v → (k, v) ∈ l := by
  intro l
  induction l with
  | nil => intro k v h; simp at h
  | cons p rest ih =>
    intro k v h
    obtain ⟨k', v'⟩ := p
    rw [List.lookup_cons] at h
    by_cases hk : k = k'
    · subst hk
      simp_all
    · rw [beq_false_of_ne hk] at h
      exact List.mem_cons_of_mem _ (ih h)

theorem mem_keys_of_lookup {α : Type} {l : List (String × α)} {k : String} {v : α}
    (h : l.lookup k = some v) : k ∈ keys l :=
  List.mem_map.mpr ⟨(k, v), lookup_mem h, rfl⟩

theorem lookup_keyed_filterMap_of_not_mem {β : Type} (f : String → Option β) :
    ∀ (l : List String) (t : String), t ∉ l →
      (l.filterMap (fun x => (f x).map (fun b => (x, b)))).lookup t = none := by
  intro l
  induction l with
  | nil => intro t _; simp
  | cons x xs ih =>
    intro t ht
    have hxt : t ≠ x := fun e => ht (e ▸ List.mem_cons_self x xs)
    have htxs : t ∉ xs := fun hm => ht (List.mem_cons_of_mem _ hm)
    cases hfx : f x with
    | none => simpa [List.filterMap_cons, hfx] using ih t htxs
    | some b =>
      rw [List.filterMap_cons, hfx]
      simp only [Option.map_some']
      rw [List.lookup_cons, beq_false_of_ne hxt]
      exact ih t htxs

theorem lookup_keyed_filterMap {β : Type} (f : String → Option β) :
    ∀ (l : List String) (t : String), l.Nodup → t ∈ l →
      (l.filterMap (fun x => (f x).map (fun b => (x, b)))).lookup t = f t := by
  intro l
  induction l with
  | nil => intro t _ ht; simp at ht
  | cons x xs ih =>
    intro t hnd ht
    rcases List.mem_cons.mp ht with he | hm
    · subst he
      have htxs : t ∉ xs := (List.nodup_cons.mp hnd).1
      cases hft : f t with
      | none =>
        rw [List.filterMap_cons, hft]
        exact lookup_keyed_filterMap_of_not_mem f xs t htxs
      | some b =>
        rw [List.filterMap_cons, hft]
        simp [List.lookup_cons]
    · have hxt : t ≠ x := by
        intro e; subst e; exact (List.nodup_cons.mp hnd).1 hm
      have hrec := ih t (List.nodup_cons.mp hnd).2 hm
      cases hfx : f x with
      | none => simpa [List.filterMap_cons, hfx] using hrec
      | some b =>
        rw [List.filterMap_cons, hfx]
        simp only [Option.map_some']
        rw [List.lookup_cons, beq_false_of_ne hxt]
        exact hrec

theorem mem_of_mem_keys_keyed_filterMap {β : Type} {f : String → Option β} {l : List String}
    {t : String} (h : t ∈ keys (l.filterMap (fun x => (f x).map (fun b => (x, b))))) :
    t ∈ l := by
  obtain ⟨⟨a, b⟩, hpmem, hfst⟩ := List.mem_map.mp h
  obtain ⟨x, hx, hgx⟩ := List.mem_filterMap.mp hpmem
  cases hq : f x with
  | none => rw [hq] at hgx; simp at hgx
  | some c =>
    rw [hq] at hgx
    simp only [Option.map_some', Option.some.injEq] at hgx
    have : x = a := congrArg Prod.fst hgx
    subst this
    subst hfst
    exact hx

theorem compareDefs_self (cd : ColumnDef) : compareDefs cd cd = [] := by
  simp [compareDefs]

theorem compareCols_self (cols : List (String × ColumnDef)) :
    compareCols cols cols = { missing := [], extra := [], changed := [] } := by
  have hmiss : (keys cols).filter (fun c => !(keys cols).contains c) = [] := by
    rw [List.filter_eq_nil_iff]
    intro a ha
    simp [List.contains, List.elem_iff, ha]
  unfold compareCols
  dsimp only
  simp only [ColDiff.mk.injEq]
  refine ⟨hmiss, hmiss, ?_⟩
  rw [List.filterMap_eq_nil_iff]
  intro c _
  cases h : cols.lookup c with
  | none => simp [h]
  | some sd => simp [h, compareDefs_self]

theorem tableEntry_self (S : Snapshot) (t : String) : tableEntry S S t = none := by
  unfold tableEntry
  cases h : S.lookup t with
  | none => simp [h]
  | some st => simp [h, compareCols_self]

/-- Claim C3: for any snapshot `S`, `compare_metadata S S` yields a diff in
which `tables.missing`, `tables.extra` and `tables.changed` are all empty and
`columns` is an empty mapping. -/
theorem compare_metadata_self (S : Snapshot) :
    compare_metadata S S =
      { tables := { missing := [], extra := [], changed := [] }, columns := [] } := by
  unfold compare_metadata
  have h1 : (keys S).filter (fun t => !(keys S).contains t) = [] := by
    rw [List.filter_eq_nil_iff]
    intro a ha
    simp [List.contains, List.elem_iff, ha]
  have h2 : ((keys S).filter (fun t => (keys S).contains t)).filterMap
      (fun t => (tableEntry S S t).map (fun cd => (t, cd))) = [] := by
    rw [List.filterMap_eq_nil_iff]
    intro t _
    simp [tableEntry_self]
  simp only [Diff.mk.injEq, TablesDiff.mk.injEq]
  exact ⟨⟨h1, h1, by rw [h2]; rfl⟩, h2⟩

theorem startswith_dropLast_self {p : String} (h : py_endswith p "*" = true) :
    py_startswith p (py_dropLast p) = true := by
  simp only [py_endswith, List.isSuffixOf_iff_suffix] at h
  obtain ⟨pre, hpre⟩ := h
  simp only [py_startswith, py_dropLast, List.isPrefixOf_iff_prefix]
  show p.data.dropLast <+: p.data
  rw [← hpre, List.dropLast_concat]
  exact List.prefix_append _ _

/-- Claim C5: the exclusion predicate returns true iff some pattern either
ends with the wildcard marker `*` and the table name starts with the pattern
minus its final character, or equals the table name exactly; it returns false
on the empty pattern list; and the four concrete examples from the spec
evaluate as stated. -/
theorem should_exclude_table_spec (t : String) (ps : List String) :
    (should_exclude_table t ps = true ↔
      ∃ p ∈ ps, (py_endswith p "*" = true ∧ py_startswith t (py_dropLast p) = true) ∨ p = t)
    ∧ should_exclude_table t [] = false
    ∧ should_exclude_table "users_backup_2023" ["users_backup_*"] = true
    ∧ should_exclude_table "users" ["users_backup_*"] = false
    ∧ should_exclude_table "logs" ["logs"] = true
    ∧ should_exclude_table "logs2" ["logs"] = false := by
  refine ⟨?_, rfl, by decide, by decide, by decide, by decide⟩
  induction ps with
  | nil => simp [should_exclude_table]
  | cons p rest ih =>
    simp only [should_exclude_table]
    by_cases h1 : py_endswith p "*" = true
    · by_cases h2 : py_startswith t (py_dropLast p) = true
      · simp only [h1, h2, if_true]
        exact ⟨fun _ => ⟨p, List.mem_cons_self p rest, Or.inl ⟨h1, h2⟩⟩, fun _ => trivial⟩
      · simp only [h1, if_true, h2, if_false, Bool.false_eq_true]
        rw [ih]
        constructor
        · rintro ⟨q, hq, hcase⟩
          exact ⟨q, List.mem_cons_of_mem _ hq, hcase⟩
        · rintro ⟨q, hq, hcase⟩
          rcases List.mem_cons.mp hq with rfl | hq'
          · rcases hcase with ⟨-, hstart⟩ | rfl
            · exact absurd hstart h2
            · exact absurd (startswith_dropLast_self h1) h2
          · exact ⟨q, hq', hcase⟩
    · by_cases h3 : p = t
      · subst h3
        simp only [h1]
        simp only [beq_self_eq_true, if_true]
        exact ⟨fun _ => ⟨p, List.mem_cons_self p rest, Or.inr rfl⟩, fun _ => by simp⟩
      · simp only [h1]
        rw [beq_false_of_ne h3]
        simp only [Bool.false_eq_true, if_false]
        rw [ih]
        constructor
        · rintro ⟨q, hq, hcase⟩
          exact ⟨q, List.mem_cons_of_mem _ hq, hcase⟩
        · rintro ⟨q, hq, hcase⟩
          rcases List.mem_cons.mp hq with rfl | hq'
          · rcases hcase with ⟨hend, -⟩ | rfl
            · exact absurd hend h1
            · exact absurd rfl h3
          · exact ⟨q, hq', hcase⟩

/-- Claim C10: the pattern list consisting of the bare wildcard marker `*`
(an empty prefix before the marker) excludes every table name. -/
theorem star_pattern_excludes_all (t : String) :
    should_exclude_table t ["*"] = true := by
  have h1 : py_endswith "*" "*" = true := by decide
  have h2 : py_startswith t (py_dropLast "*") = true := by
    simp only [py_startswith, py_dropLast]
    have : (("*" : String).data.dropLast) = [] := by decide
    rw [this]
    cases t.data <;> rfl
  simp [should_exclude_table, h1, h2]

/-- Claim C2: for the result of `compare_metadata`, a table appears in
`columns` iff it appears in `tables.changed`; a table in `tables.missing` or
`tables.extra` never appears in `columns`; and a pair of common tables whose
only difference is the table comment still produces a `columns` entry whose
missing/extra/changed collections are all empty. -/
theorem columns_iff_changed (src tgt : Snapshot) (t : String) (hnd : (keys src).Nodup) :
    (t ∈ (compare_metadata src tgt).tables.changed ↔
      t ∈ keys (compare_metadata src tgt).columns)
    ∧ (t ∈ (compare_metadata src tgt).tables.missing →
        t ∉ keys (compare_metadata src tgt).columns)
    ∧ (t ∈ (compare_metadata src tgt).tables.extra →
        t ∉ keys (compare_metadata src tgt).columns)
    ∧ (∀ st tt, src.lookup t = some st → tgt.lookup t = some tt →
        st.columns = tt.columns → st.comment ≠ tt.comment →
        (compare_metadata src tgt).columns.lookup t =
          some { missing := [], extra := [], changed := [] }) := by
  refine ⟨?_, ?_, ?_, ?_⟩
  · unfold compare_metadata keys
    exact Iff.rfl
  · intro hmiss hcols
    unfold compare_metadata at hmiss hcols
    dsimp only at hmiss hcols
    have h2 : t ∈ (keys src).filter (fun x => (keys tgt).contains x) :=
      mem_of_mem_keys_keyed_filterMap hcols
    have h1 := (List.mem_filter.mp hmiss).2
    have h3 := (List.mem_filter.mp h2).2
    rw [h3] at h1
    simp at h1
  · intro hextra hcols
    unfold compare_metadata at hextra hcols
    dsimp only at hextra hcols
    have h2 : t ∈ (keys src).filter (fun x => (keys tgt).contains x) :=
      mem_of_mem_keys_keyed_filterMap hcols
    have h1 := (List.mem_filter.mp hextra).2
    have h3 := (List.mem_filter.mp h2).1
    simp [List.contains, List.elem_iff, h3] at h1
  · intro st tt hst htt hcols hcomm
    have htmem : t ∈ keys src := mem_keys_of_lookup hst
    have htgt : t ∈ keys tgt := mem_keys_of_lookup htt
    have hcommon : t ∈ (keys src).filter (fun x => (keys tgt).contains x) :=
      List.mem_filter.mpr ⟨htmem, by simp [List.contains, List.elem_iff, htgt]⟩
    have hcnd : ((keys src).filter (fun x => (keys tgt).contains x)).Nodup :=
      hnd.filter _
    unfold compare_metadata
    dsimp only
    rw [lookup_keyed_filterMap (tableEntry src tgt) _ t hcnd hcommon]
    unfold tableEntry
    rw [hst, htt]
    dsimp only
    rw [hcols, compareCols_self]
    simp [hcomm]

/-- Witness for C2 at a concrete pair of snapshots differing only in one
table comment. -/
theorem columns_iff_changed_witness :
    (keys ([("t", { columns := [], primary_key := [], comment := "a" })] : Snapshot)).Nodup
    ∧ (("t" ∈ (compare_metadata [("t", { columns := [], primary_key := [], comment := "a" })]
          [("t", { columns := [], primary_key := [], comment := "b" })]).tables.changed ↔
        "t" ∈ keys (compare_metadata [("t", { columns := [], primary_key := [], comment := "a" })]
          [("t", { columns := [], primary_key := [], comment := "b" })]).columns)
      ∧ ("t" ∈ (compare_metadata [("t", { columns := [], primary_key := [], comment := "a" })]
            [("t", { columns := [], primary_key := [], comment := "b" })]).tables.missing →
          "t" ∉ keys (compare_metadata [("t", { columns := [], primary_key := [], comment := "a" })]
            [("t", { columns := [], primary_key := [], comment := "b" })]).columns)
      ∧ ("t" ∈ (compare_metadata [("t", { columns := [], primary_key := [], comment := "a" })]
            [("t", { columns := [], primary_key := [], comment := "b" })]).tables.extra →
          "t" ∉ keys (compare_metadata [("t", { columns := [], primary_key := [], comment := "a" })]
            [("t", { columns := [], primary_key := [], comment := "b" })]).columns)
      ∧ (∀ st tt,
          ([("t", { columns := [], primary_key := [], comment := "a" })] : Snapshot).lookup "t" = some st →
          ([("t", { columns := [], primary_key := [], comment := "b" })] : Snapshot).lookup "t" = some tt →
          st.columns = tt.columns → st.comment ≠ tt.comment →
          (compare_metadata [("t", { columns := [], primary_key := [], comment := "a" })]
            [("t", { columns := [], primary_key := [], comment := "b" })]).columns.lookup "t" =
            some { missing := [], extra := [], changed := [] })) :=
  ⟨by decide, columns_iff_changed _ _ "t" (by decide)⟩

theorem mem_compareCols_missing {s t : List (String × ColumnDef)} {c : String} :
    c ∈ (compareCols s t).missing ↔ (c ∈ keys s ∧ c ∉ keys t) := by
  simp [compareCols, List.mem_filter, List.contains, List.elem_iff]

theorem mem_compareCols_extra {s t : List (String × ColumnDef)} {c : String} :
    c ∈ (compareCols s t).extra ↔ (c ∈ keys t ∧ c ∉ keys s) := by
  simp [compareCols, List.mem_filter, List.contains, List.elem_iff]

theorem mem_keys_compareCols_changed {s t : List (String × ColumnDef)} {c : String}
    (h : c ∈ keys (compareCols s t).changed) : c ∈ keys s ∧ c ∈ keys t := by
  obtain ⟨⟨a, ch⟩, hpmem, hfst⟩ := List.mem_map.mp h
  simp only [compareCols] at hpmem
  obtain ⟨x, hx, hgx⟩ := List.mem_filterMap.mp hpmem
  cases h1 : s.lookup x with
  | none => rw [h1] at hgx; simp at hgx
  | some sd =>
    cases h2 : t.lookup x with
    | none => rw [h1, h2] at hgx; simp at hgx
    | some td =>
      rw [h1, h2] at hgx
      dsimp only at hgx
      by_cases hcd : compareDefs sd td ≠ []
      · rw [if_pos hcd] at hgx
        have hxa : x = a := congrArg Prod.fst (Option.some.injEq _ _ ▸ hgx)
        have hca : a = c := hfst
        subst hxa
        subst hca
        have hmem := List.mem_filter.mp hx
        refine ⟨hmem.1, ?_⟩
        have := hmem.2
        simpa [List.contains, List.elem_iff] using this
      · rw [if_neg hcd] at hgx
        simp at hgx

/-- Claim C4: for a table with a `columns` entry in the result of
`compare_metadata` (such tables are exactly those present in both
snapshots and changed), `missing` holds exactly the source columns not in
the target, `extra` exactly the target columns not in the source, `changed`
holds only columns present in both, and the three collections are pairwise
disjoint — no column appears in more than one. -/
theorem column_partition (src tgt : Snapshot) (t : String) (srcTd tgtTd : TableDef)
    (cd : ColDiff) (hs : src.lookup t = some srcTd) (ht : tgt.lookup t = some tgtTd)
    (hc : (compare_metadata src tgt).columns.lookup t = some cd) :
    (∀ c, c ∈ cd.missing ↔ (c ∈ keys srcTd.columns ∧ c ∉ keys tgtTd.columns))
    ∧ (∀ c, c ∈ cd.extra ↔ (c ∈ keys tgtTd.columns ∧ c ∉ keys srcTd.columns))
    ∧ (∀ c, c ∈ keys cd.changed → (c ∈ keys srcTd.columns ∧ c ∈ keys tgtTd.columns))
    ∧ (∀ c, ¬ (c ∈ cd.missing ∧ c ∈ cd.extra))
    ∧ (∀ c, ¬ (c ∈ cd.missing ∧ c ∈ keys cd.changed))
    ∧ (∀ c, ¬ (c ∈ cd.extra ∧ c ∈ keys cd.changed)) := by
  have hmem : (t, cd) ∈ (compare_metadata src tgt).columns := lookup_mem hc
  unfold compare_metadata at hmem
  dsimp only at hmem
  obtain ⟨x, _, hgx⟩ := List.mem_filterMap.mp hmem
  cases hq : tableEntry src tgt x with
  | none => rw [hq] at hgx; simp at hgx
  | some cd' =>
    rw [hq] at hgx
    simp only [Option.map_some', Option.some.injEq] at hgx
    have hxt : x = t := congrArg Prod.fst hgx
    have hcd : cd' = cd := congrArg Prod.snd hgx
    subst hxt
    subst hcd
    unfold tableEntry at hq
    rw [hs, ht] at hq
    dsimp only at hq
    have hcdeq : cd' = compareCols srcTd.columns tgtTd.columns := by
      by_cases hcond : (compareCols srcTd.columns tgtTd.columns).missing ≠ []
          ∨ (compareCols srcTd.columns tgtTd.columns).extra ≠ []
          ∨ (compareCols srcTd.columns tgtTd.columns).changed ≠ []
          ∨ srcTd.comment ≠ tgtTd.comment
      · rw [if_pos hcond] at hq
        exact (Option.some.injEq _ _ ▸ hq).symm
      · rw [if_neg hcond] at hq
        simp at hq
    subst hcdeq
    refine ⟨fun c => mem_compareCols_missing, fun c => mem_compareCols_extra,
      fun c hch => mem_keys_compareCols_changed hch, ?_, ?_, ?_⟩
    · rintro c ⟨h1, h2⟩
      exact (mem_compareCols_missing.mp h1).2 (mem_compareCols_extra.mp h2).1
    · rintro c ⟨h1, h2⟩
      exact (mem_compareCols_missing.mp h1).2 (mem_keys_compareCols_changed h2).2
    · rintro c ⟨h1, h2⟩
      exact (mem_compareCols_extra.mp h1).2 (mem_keys_compareCols_changed h2).1

def c4_colInt : ColumnDef := { type := "INT", nullable := true, default := none, comment := none }

def c4_colText : ColumnDef := { type := "TEXT", nullable := true, default := none, comment := none }

def c4_srcTd : TableDef := { columns := [("a", c4_colInt), ("b", c4_colInt)], primary_key := [], comment := "" }

def c4_tgtTd : TableDef := { columns := [("b", c4_colText), ("c", c4_colInt)], primary_key := [], comment := "" }

def c4_cd : ColDiff :=
  { missing := ["a"], extra := ["c"],
    changed := [("b", { src := c4_colInt, tgt := c4_colText,
                        changes := [("type", AttrChange.typeC "INT" "TEXT")] })] }

/-- Witness for C4 at a concrete pair of snapshots with one missing, one
extra and one type-changed column. -/
theorem column_partition_witness :
    ([("t", c4_srcTd)] : Snapshot).lookup "t" = some c4_srcTd
    ∧ ([("t", c4_tgtTd)] : Snapshot).lookup "t" = some c4_tgtTd
    ∧ (compare_metadata [("t", c4_srcTd)] [("t", c4_tgtTd)]).columns.lookup "t" = some c4_cd
    ∧ ((∀ c, c ∈ c4_cd.missing ↔ (c ∈ keys c4_srcTd.columns ∧ c ∉ keys c4_tgtTd.columns))
      ∧ (∀ c, c ∈ c4_cd.extra ↔ (c ∈ keys c4_tgtTd.columns ∧ c ∉ keys c4_srcTd.columns))
      ∧ (∀ c, c ∈ keys c4_cd.changed → (c ∈ keys c4_srcTd.columns ∧ c ∈ keys c4_tgtTd.columns))
      ∧ (∀ c, ¬ (c ∈ c4_cd.missing ∧ c ∈ c4_cd.extra))
      ∧ (∀ c, ¬ (c ∈ c4_cd.missing ∧ c ∈ keys c4_cd.changed))
      ∧ (∀ c, ¬ (c ∈ c4_cd.extra ∧ c ∈ keys c4_cd.changed))) :=
  ⟨by decide, by decide, by decide,
    column_partition [("t", c4_srcTd)] [("t", c4_tgtTd)] "t" c4_srcTd c4_tgtTd c4_cd
      (by decide) (by decide) (by decide)⟩

/-- Counterexample for C6: a column whose comment key is absent on the
source side and is the empty string on the target side IS reported as
changed by `compare_metadata` (the code compares the raw `.get("comment")`
results, so Python `None` differs from `""`), contradicting the claim that
such a column produces no "comment" entry in its changes. -/
theorem comment_absent_vs_empty_counterexample :
    (compare_metadata
        [("t", { columns := [("c", { type := "INT", nullable := true, default := none,
                                     comment := none })],
                 primary_key := [], comment := "" })]
        [("t", { columns := [("c", { type := "INT", nullable := true, default := none,
                                     comment := some "" })],
                 primary_key := [], comment := "" })]).columns
      = [("t", { missing := [], extra := [],
                 changed := [("c",
                   { src := { type := "INT", nullable := true, default := none, comment := none },
                     tgt := { type := "INT", nullable := true, default := none, comment := some "" },
                     changes := [("comment", AttrChange.commentC "" "")] })] })] := by decide

/-- Claim C6 (amended): `compare_metadata` compares the comment attribute by
equality of the raw optional comment values, with an absent comment distinct
from the empty string; a "comment" entry appears in a common column's
changes exactly when the two optional comments differ (so absent-vs-empty IS
reported as changed). -/
theorem comment_change_iff (sd td : ColumnDef) :
    "comment" ∈ (compareDefs sd td).map Prod.fst ↔ sd.comment ≠ td.comment := by
  by_cases h1 : sd.type ≠ td.type <;> by_cases h2 : sd.nullable ≠ td.nullable <;>
    by_cases h3 : sd.default ≠ td.default <;> by_cases h4 : sd.comment ≠ td.comment <;>
    simp [compareDefs, h1, h2, h3, h4]

/-- The core of the Python regex `^'.*'$`: a leading single quote, a
newline-free middle (Python `.` does not match a newline), and a trailing
single quote. -/
def quotedCore (cs : List Char) : Bool :=
  match cs with
  | [] => false
  | c :: rest =>
    c == '\x27' && !rest.isEmpty && rest.getLast? == some '\x27'
      && rest.dropLast.all (fun d => d != '\n')

/-- `re.match(r"^'.*'$", s) is not None` with Python semantics: `$` also
matches just before a single newline at the end of the string. -/
def reMatchQuoted (s : String) : Bool :=
  quotedCore s.data || (s.data.getLast? == some '\n' && quotedCore s.data.dropLast)

/-- The claim's reading of "already wrapped in single quotes": at least two
characters, the first and the last being a single quote. -/
def wrappedInSingleQuotes (s : String) : Prop :=
  2 ≤ s.data.length ∧ s.data.head? = some '\x27' ∧ s.data.getLast? = some '\x27'

instance (s : String) : Decidable (wrappedInSingleQuotes s) := by
  unfold wrappedInSingleQuotes
  infer_instance

/-- The default-value literal as embedded into DDL by `generate_sync_script`:
a string default not matching `^'.*'$` is wrapped in single quotes, any
other value is rendered by Python str() inside the f-string. -/
def renderDefaultVal : DefVal → String
  | DefVal.str s => if reMatchQuoted s then s else "\x27" ++ s ++ "\x27"
  | DefVal.num n => toString n
  | DefVal.boolean b => if b then "True" else "False"

/-- The `DEFAULT` fragment: appended exactly when the column default is not
Python `None`. -/
def defaultClause : Option DefVal → String
  | none => ""
  | some v => " DEFAULT " ++ renderDefaultVal v

/-- One column clause of a generated `CREATE TABLE` statement
(`"    {col} {type}"` plus optional `NOT NULL` and `DEFAULT`). -/
def colClause (col : String) (cd : ColumnDef) : String :=
  "    " ++ col ++ " " ++ cd.type ++ (if cd.nullable then "" else " NOT NULL")
    ++ defaultClause cd.default

/-- The `col_definitions` accumulation loop of the CREATE TABLE branch:
iterates the source columns in snapshot order and keeps exactly the
selected ones. -/
def colDefinitions : List (String × ColumnDef) → List String → List String
  | [], _ => []
  | (col, cd) :: rest, sel =>
    if col ∈ sel then colClause col cd :: colDefinitions rest sel
    else colDefinitions rest sel

/-- An `ALTER TABLE ... ADD COLUMN` statement for a selected missing column,
built from the source definition. -/
def addColumnStmt (table col : String) (cd : ColumnDef) : String :=
  "ALTER TABLE " ++ table ++ " ADD COLUMN " ++ col ++ " " ++ cd.type
    ++ (if cd.nullable then "" else " NOT NULL") ++ defaultClause cd.default ++ ";\n"

/-- The add-missing-columns loop.  `src_cols[col]` is a direct Python dict
index; its KeyError is modelled as `none`. -/
def addColumnStmts (table : String) (srcCols : List (String × ColumnDef)) :
    List String → List String → Option String
  | [], _ => some ""
  | col :: rest, sel =>
    if col ∈ sel then
      match srcCols.lookup col with
      | none => none
      | some cd =>
        match addColumnStmts table srcCols rest sel with
        | none => none
        | some s => some (addColumnStmt table col cd ++ s)
    else addColumnStmts table srcCols rest sel

/-- An `ALTER TABLE ... MODIFY COLUMN` statement using the source side of a
recorded change. -/
def modifyColumnStmt (table col : String) (cd : ColumnDef) : String :=
  "ALTER TABLE " ++ table ++ " MODIFY COLUMN " ++ col ++ " " ++ cd.type
    ++ (if cd.nullable then "" else " NOT NULL") ++ defaultClause cd.default ++ ";\n"

/-- The modify-changed-columns loop (renders `changes["src"]` of each
selected changed column). -/
def modifyColumnStmts (table : String) : List (String × ColChange) → List String → String
  | [], _ => ""
  | (col, ch) :: rest, sel =>
    (if col ∈ sel then modifyColumnStmt table col ch.src else "")
      ++ modifyColumnStmts table rest sel

/-- The body of the `for table in selected_tables` loop of
`generate_sync_script` for one table.  `src_meta[table]` is a direct dict
index, so a selected table absent from the source snapshot raises KeyError,
modelled as `none`; the same holds for `diff["columns"][table]`.  A selected
table that is in neither `tables.missing` nor `tables.changed` contributes
nothing. -/
def tableScript (srcMeta : Snapshot) (diff : Diff)
    (selCols : List (String × List String)) (table : String) : Option String :=
  match srcMeta.lookup table with
  | none => none
  | some srcTd =>
    let sel := (selCols.lookup table).getD []
    if table ∈ diff.tables.missing then
      some ("\n-- 创建缺失的表: " ++ table ++ "\n" ++ "CREATE TABLE " ++ table ++ " (\n"
        ++ String.intercalate ",\n" (colDefinitions srcTd.columns sel)
        ++ (if srcTd.primary_key ≠ [] then
              ",\n    PRIMARY KEY (" ++ String.intercalate ", " srcTd.primary_key ++ ")"
            else "")
        ++ "\n);\n")
    else if table ∈ diff.tables.changed then
      match diff.columns.lookup table with
      | none => none
      | some tdiff =>
        match addColumnStmts table srcTd.columns tdiff.missing sel with
        | none => none
        | some adds =>
          some ("\n-- 同步表结构变更: " ++ table ++ "\n" ++ adds
            ++ modifyColumnStmts table tdiff.changed sel)
    else some ""

/-- The whole selected-tables loop, concatenating per-table fragments and
propagating a KeyError as `none`. -/
def tableScripts (srcMeta : Snapshot) (diff : Diff)
    (selCols : List (String × List String)) : List String → Option String
  | [] => some ""
  | t :: rest =>
    match tableScript srcMeta diff selCols t with
    | none => none
    | some s =>
      match tableScripts srcMeta diff selCols rest with
      | none => none
      | some s2 => some (s ++ s2)

/-- `generate_sync_script` from app.py.  The generation timestamp is passed
as the `now` argument.  `tgt_meta` is accepted but does not influence the
output: in the source the local `tgt_cols` computed from it is never used.
The final advisory block renders selected extra tables as commented-out
DROP lines only. -/
def generate_sync_script (conn_id now : String) (src_meta tgt_meta : Snapshot)
    (diff : Diff) (selected_tables : List String)
    (selected_columns : List (String × List String)) : Option String :=
  let header := "-- 数据库同步脚本: " ++ conn_id ++ "\n"
    ++ "-- 生成时间: " ++ now ++ "\n"
    ++ "-- 同步模式: 结构同步\n\n"
    ++ "-- 共选择 " ++ toString selected_tables.length ++ " 个表进行同步\n"
  match tableScripts src_meta diff selected_columns selected_tables with
  | none => none
  | some body =>
    let extra_tables := diff.tables.extra.filter (fun t => selected_tables.contains t)
    let extraPart :=
      if extra_tables ≠ [] then
        "\n-- 目标库多余的表（源库不存在）\n"
          ++ String.join (extra_tables.map (fun t =>
              "-- DROP TABLE " ++ t ++ ";  -- 谨慎: 删除多余表\n"))
      else ""
    some (header ++ body ++ extraPart ++ "\n-- 同步完成 --\n")

/-- Claim C7: the CREATE TABLE column-clause list is exactly the rendering,
in source-snapshot order, of the source columns listed in the selection; a
column name contributes a clause iff it is a source column and selected;
and the empty selection (the `.get(table, [])` default for a table absent
from `selected_columns`) contributes no clauses at all. -/
theorem create_table_columns_selection (srcCols : List (String × ColumnDef))
    (sel : List String) :
    colDefinitions srcCols sel
      = (srcCols.filter (fun p => decide (p.1 ∈ sel))).map (fun p => colClause p.1 p.2)
    ∧ (∀ c, c ∈ keys (srcCols.filter (fun p => decide (p.1 ∈ sel)))
        ↔ (c ∈ keys srcCols ∧ c ∈ sel))
    ∧ colDefinitions srcCols [] = [] := by
  refine ⟨?_, ?_, ?_⟩
  · induction srcCols with
    | nil => rfl
    | cons p rest ih =>
      obtain ⟨col, cd⟩ := p
      by_cases h : col ∈ sel
      · simp [colDefinitions, h, ih]
      · simp [colDefinitions, h, ih]
  · intro c
    simp only [keys, List.mem_map, List.mem_filter, decide_eq_true_eq]
    constructor
    · rintro ⟨p, ⟨hmem, hsel⟩, rfl⟩
      exact ⟨⟨p, hmem, rfl⟩, hsel⟩
    · rintro ⟨⟨p, hmem, rfl⟩, hsel⟩
      exact ⟨p, ⟨hmem, hsel⟩, rfl⟩
  · induction srcCols with
    | nil => rfl
    | cons p rest ih =>
      obtain ⟨col, cd⟩ := p
      simp [colDefinitions, ih]

/-- Claim C8: for a selected table in `tables.missing`, the generated CREATE
TABLE text ends in a `PRIMARY KEY (...)` clause exactly when the source
table's `primary_key` is non-empty; the clause lists the key columns in
their defined order; and it is independent of the column selection (the
selection only affects the column-clause part). -/
theorem create_table_primary_key (srcMeta : Snapshot) (diff : Diff)
    (selCols : List (String × List String)) (table : String) (srcTd : TableDef)
    (hlk : srcMeta.lookup table = some srcTd) (hmiss : table ∈ diff.tables.missing) :
    tableScript srcMeta diff selCols table
      = some ("\n-- 创建缺失的表: " ++ table ++ "\n" ++ "CREATE TABLE " ++ table ++ " (\n"
        ++ String.intercalate ",\n"
            (colDefinitions srcTd.columns ((selCols.lookup table).getD []))
        ++ (if srcTd.primary_key = [] then ""
            else ",\n    PRIMARY KEY (" ++ String.intercalate ", " srcTd.primary_key ++ ")")
        ++ "\n);\n") := by
  unfold tableScript
  rw [hlk]
  dsimp only
  rw [if_pos hmiss]
  by_cases h : srcTd.primary_key = []
  · rw [if_neg (not_not_intro h), if_pos h]
  · rw [if_pos h, if_neg h]

def c8_srcTd : TableDef :=
  { columns :=
      [("id", { type := "INTEGER", nullable := false, default := none, comment := none }),
       ("total", { type := "DECIMAL", nullable := true, default := some (DefVal.num 0),
                   comment := none }),
       ("email", { type := "TEXT", nullable := true, default := none, comment := none })],
    primary_key := ["id"], comment := "" }

/-- Witness for C8 at the spec's `orders` scenario (selection omits no key
column here; a second evaluation below checks the clause survives even when
the key column is not selected). -/
theorem create_table_primary_key_witness :
    ([("orders", c8_srcTd)] : Snapshot).lookup "orders" = some c8_srcTd
    ∧ "orders" ∈ ({ tables := { missing := ["orders"], extra := [], changed := [] },
                    columns := [] } : Diff).tables.missing
    ∧ tableScript [("orders", c8_srcTd)]
        { tables := { missing := ["orders"], extra := [], changed := [] }, columns := [] }
        [("orders", ["id", "total"])] "orders"
      = some ("\n-- 创建缺失的表: " ++ "orders" ++ "\n" ++ "CREATE TABLE " ++ "orders" ++ " (\n"
        ++ String.intercalate ",\n"
            (colDefinitions c8_srcTd.columns
              ((([("orders", ["id", "total"])] : List (String × List String)).lookup
                  "orders").getD []))
        ++ (if c8_srcTd.primary_key = [] then ""
            else ",\n    PRIMARY KEY (" ++ String.intercalate ", " c8_srcTd.primary_key ++ ")")
        ++ "\n);\n") :=
  ⟨by decide, by decide,
    create_table_primary_key [("orders", c8_srcTd)]
      { tables := { missing := ["orders"], extra := [], changed := [] }, columns := [] }
      [("orders", ["id", "total"])] "orders" c8_srcTd (by decide) (by decide)⟩

theorem getLast?_cons_of_ne_nil {α : Type} (c : α) {l : List α} (h : l ≠ []) :
    (c :: l).getLast? = l.getLast? := by
  cases l with
  | nil => exact absurd rfl h
  | cons b bs => exact List.getLast?_cons_cons

theorem reMatchQuoted_eq_wrapped {s : String} (hnl : ∀ c ∈ s.data, c ≠ '\n') :
    reMatchQuoted s = true ↔ wrappedInSingleQuotes s := by
  have hlast : (s.data.getLast? == some '\n') = false := by
    rw [beq_eq_false_iff_ne]
    intro h
    exact hnl _ (List.mem_of_getLast?_eq_some h) rfl
  unfold reMatchQuoted
  rw [hlast]
  simp only [Bool.false_and, Bool.or_false]
  unfold wrappedInSingleQuotes
  cases hcs : s.data with
  | nil => simp [quotedCore]
  | cons c rest =>
    have hrest_nl : ∀ d ∈ rest, d ≠ '\n' := by
      intro d hd
      exact hnl d (hcs ▸ List.mem_cons_of_mem c hd)
    have hc_nl : c ≠ '\n' := hnl c (hcs ▸ List.mem_cons_self c rest)
    simp only [quotedCore, Bool.and_eq_true, beq_iff_eq, Bool.not_eq_true',
      List.isEmpty_eq_false, List.all_eq_true, bne_iff_ne]
    constructor
    · rintro ⟨⟨⟨hcq, hne⟩, hlq⟩, -⟩
      refine ⟨?_, ?_, ?_⟩
      · simpa [Nat.succ_le_succ_iff, Nat.one_le_iff_ne_zero, List.length_eq_zero] using hne
      · simp [hcq]
      · rw [getLast?_cons_of_ne_nil c hne]
        exact hlq
    · rintro ⟨hlen, hhead, hlq⟩
      have hcq : c = '\x27' := by simpa using hhead
      have hne : rest ≠ [] := by
        intro he
        subst he
        simp at hlen
      refine ⟨⟨⟨hcq, hne⟩, ?_⟩, ?_⟩
      · rw [getLast?_cons_of_ne_nil c hne] at hlq
        exact hlq
      · intro d hd
        exact hrest_nl d (List.dropLast_subset rest hd)

/-- Claim C9 (amended): the DEFAULT clause is emitted iff the default is not
the `None` sentinel; a string default is embedded unchanged iff it matches
the Python regex `^'.*'$` (which, for strings containing no newline,
coincides with "starts and ends with a single quote and has length ≥ 2"),
and is wrapped in single quotes otherwise; numeric and boolean defaults are
embedded via their str() rendering. -/
theorem default_literal_rule (s : String) (v : DefVal) (n : Int) (b : Bool) :
    (renderDefaultVal (DefVal.str s) = if reMatchQuoted s then s else "\x27" ++ s ++ "\x27")
    ∧ ((∀ c ∈ s.data, c ≠ '\n') → (reMatchQuoted s = true ↔ wrappedInSingleQuotes s))
    ∧ renderDefaultVal (DefVal.num n) = toString n
    ∧ renderDefaultVal (DefVal.boolean b) = (if b then "True" else "False")
    ∧ defaultClause none = ""
    ∧ defaultClause (some v) = " DEFAULT " ++ renderDefaultVal v :=
  ⟨rfl, fun h => reMatchQuoted_eq_wrapped h, rfl, rfl, rfl, rfl⟩

/-- Witness for C9 at the newline-free string default `'abc'` (single quotes
included in the value). -/
theorem default_literal_rule_witness :
    (∀ c ∈ ("\x27abc\x27" : String).data, c ≠ '\n')
    ∧ (reMatchQuoted "\x27abc\x27" = true ↔ wrappedInSingleQuotes "\x27abc\x27") :=
  ⟨by decide, (default_literal_rule "\x27abc\x27" (DefVal.num 0) 0 true).2.1 (by decide)⟩

/-- Counterexample for C9: the string default `'\n'` (a quote, a newline, a
quote) is wrapped in single quotes in the claim's sense, yet the code wraps
it again (Python `.` does not match the newline, so `^'.*'$` fails),
refuting "a string default already wrapped in single quotes is embedded
unchanged". -/
theorem default_literal_counterexample :
    wrappedInSingleQuotes "\x27\n\x27"
    ∧ renderDefaultVal (DefVal.str "\x27\n\x27") ≠ "\x27\n\x27" :=
  ⟨by decide, by decide⟩

/-- Claim C1 evaluation: selecting the table `temp_cache` that exists only
in the target snapshot makes `generate_sync_script` index
`src_meta["temp_cache"]` inside the selected-tables loop and fail with a
Python KeyError (modelled as `none`); no script — in particular no advisory
comment for the extra table — is produced, and the extra-table advisory
block later in the function is unreachable for such a selection. -/
theorem selected_unknown_table_keyerror :
    generate_sync_script "conn" "2024-01-01 00:00:00" []
      [("temp_cache", { columns := [], primary_key := [], comment := "" })]
      (compare_metadata [] [("temp_cache", { columns := [], primary_key := [], comment := "" })])
      ["temp_cache"] [] = none := by decide
